/-
Verification of the CS2 voice-data decode pipeline (CS2VoiceData / cs2-voice-tools).

Shallow embedding of:
  * internal/decoder/decoder.go   — OpusDecoder.Decode, decodeSteamChunk, decodeLoss,
                                    package-level Decode (direct pipeline)
  * decoder DecodeChunk           — packet parsing + CRC32 verification
  * internal/extract/extract.go   — convertAudioDataToWavFiles / opusToWav payload loops,
                                    format-tag pipeline selection in ExtractVoiceData

Bytes are modelled as `Nat` (values < 256 where faithfulness requires it, stated as a
hypothesis or guaranteed by encoders).  The external Opus codec engine
(gopkg.in/hraban/opus.v2, outside this repository) is modelled as an abstract `Engine`
over an opaque codec-state type `σ` and an abstract sample type `α` standing for
float32: the engine alone produces sample values, while the repository's code controls
only how many samples flow where, which is what the verified properties concern.
-/
import Mathlib

set_option maxRecDepth 100000

namespace CS2Voice

/-! ## Byte-level helpers -/

/-- Little-endian value of a byte list (least significant byte first),
as produced by Go's `binary.Read(..., binary.LittleEndian, ...)`. -/
def leVal (bs : List Nat) : Nat :=
  bs.foldr (fun b acc => b + 256 * acc) 0

/-- Two's-complement interpretation of two little-endian bytes as an `int16`. -/
def i16 (b0 b1 : Nat) : Int :=
  let v := b0 + 256 * b1
  if v < 32768 then (v : Int) else (v : Int) - 65536

/-- Two little-endian bytes as a `uint16`. -/
def u16 (b0 b1 : Nat) : Nat := b0 + 256 * b1

/-- Little-endian encoding of a value below 2^16 into two bytes. -/
def encU16 (v : Nat) : List Nat := [v % 256, v / 256 % 256]

/-! ## CRC32 (IEEE), as computed by Go's `hash/crc32.ChecksumIEEE` -/

/-- One bit step of the reflected CRC32 algorithm with polynomial 0xEDB88320. -/
def crc32Bit (c : Nat) : Nat :=
  if c % 2 = 1 then (c / 2) ^^^ 0xEDB88320 else c / 2

/-- Fold one byte into the running CRC. -/
def crc32Byte (c b : Nat) : Nat :=
  crc32Bit (crc32Bit (crc32Bit (crc32Bit (crc32Bit (crc32Bit (crc32Bit (crc32Bit (c ^^^ b))))))))

/-- `crc32.ChecksumIEEE`: init 0xFFFFFFFF, per-byte reflected update, final complement. -/
def crc32 (bs : List Nat) : Nat :=
  0xFFFFFFFF ^^^ bs.foldl crc32Byte 0xFFFFFFFF

/-! ## The external codec engine, abstracted

`decodeFrame` models `opus.Decoder.DecodeFloat32(b, o)` on a 480-sample buffer followed
by `o[:n]` (the engine chooses `n` and the sample values); `plc` models
`opus.Decoder.DecodePLCFloat32(t)` on a buffer of exactly `FrameSize` samples — the Go
code appends the whole buffer `t`, so a concealment call always contributes exactly
`FrameSize` samples, which the subtype records.  `σ` is the engine's internal codec
state, `α` the sample type (float32 in Go). -/

/-- `FrameSize` from decoder.go: samples per Opus frame. -/
def FrameSize : Nat := 480

structure Engine (σ α : Type) where
  decodeFrame : σ → List Nat → Except Unit (σ × List α)
  plc : σ → Except Unit (σ × {l : List α // l.length = FrameSize})

/-! ## OpusDecoder.decodeLoss -/

/-- The `for i := 0; i < int(loss); i += 1` loop body of `decodeLoss`:
each iteration calls `DecodePLCFloat32` on a fresh `FrameSize` buffer and appends it. -/
def decodeLossLoop {σ α : Type} (e : Engine σ α) :
    Nat → σ → List α → Except Unit (σ × List α)
  | 0, s, acc => .ok (s, acc)
  | n + 1, s, acc =>
    match e.plc s with
    | .error _ => .error ()
    | .ok (s', t) => decodeLossLoop e n s' (acc ++ t.1)

/-- `OpusDecoder.decodeLoss(samples uint16)`: caps the frame count at `min(samples, 10)`
and synthesizes that many concealment frames. -/
def decodeLoss {σ α : Type} (e : Engine σ α) (s : σ) (samples : Nat) :
    Except Unit (σ × List α) :=
  decodeLossLoop e (min samples 10) s []

/-- `OpusDecoder.decodeSteamChunk`: decode one chunk via the engine
(`DecodeFloat32` into a 480-sample buffer, returning `o[:n]`). -/
def decodeSteamChunk {σ α : Type} (e : Engine σ α) (s : σ) (b : List Nat) :
    Except Unit (σ × List α) :=
  e.decodeFrame s b

/-! ## OpusDecoder.Decode: the sequenced sub-chunk loop -/

/-- Errors `Decode` can return (`binary.Read` I/O errors collapsed to `readEOF`;
`ErrInvalidVoicePacket` for a short chunk read; codec failures). -/
inductive DErr where
  | readEOF
  | invalidVoicePacket
  | codec
deriving DecidableEq, Repr

/-- Outcome of `OpusDecoder.Decode`: samples plus updated decoder state on success,
a returned error, or a Go runtime panic (`make([]byte, n)` with `n < 0`). -/
inductive DecodeResult (σ α : Type) where
  | ok (samples : List α) (currentFrame : Nat) (st : σ)
  | err (e : DErr)
  | panic
deriving DecidableEq

/-- The `for buf.Len() != 0` loop of `OpusDecoder.Decode` (decoder.go:43–92).
`cf` is `d.currentFrame` (a `uint16`, kept `< 65536`), `st` the engine state,
`acc` the `output` accumulator.  Each iteration reads an `i16` sub-chunk length,
handles the `-1` sentinel, reads a `u16` frame index, allocates the chunk buffer
(panicking on a negative length), reads the chunk bytes, and dispatches on the
declared frame index versus `previousFrame`.  Each iteration consumes at least one
byte, so running with fuel equal to the buffer length (see `decodeLoop`) never hits
the out-of-fuel arm; the fuel only makes the recursion structural. -/
def decodeLoopF {σ α : Type} (e : Engine σ α) :
    Nat → List Nat → Nat → σ → List α → DecodeResult σ α
  | _, [], cf, st, acc => .ok acc cf st
  | 0, _ :: _, _, _, _ => .err .readEOF
  | _ + 1, [_], _, _, _ => .err .readEOF
  | fuel + 1, b0 :: b1 :: bs1, cf, st, acc =>
    let chunkLen := i16 b0 b1
    if chunkLen = -1 then
      -- sentinel: reset currentFrame and break out of the loop
      .ok acc 0 st
    else
      match bs1 with
      | [] => .err .readEOF
      | [_] => .err .readEOF
      | c0 :: c1 :: bs2 =>
        let declared := u16 c0 c1
        if chunkLen < 0 then
          -- make([]byte, chunkLen) with negative length: runtime panic
          .panic
        else
          let cl := chunkLen.toNat
          if 0 < cl ∧ bs2.length = 0 then
            -- buf.Read on an empty buffer returns io.EOF
            .err .readEOF
          else if bs2.length < cl then
            -- short read: n != int(chunkLen)
            .err .invalidVoicePacket
          else
            let chunk := bs2.take cl
            let bs3 := bs2.drop cl
            if cf ≤ declared then
              if declared = cf then
                match decodeSteamChunk e st chunk with
                | .error _ => .err .codec
                | .ok (st', out) =>
                  decodeLoopF e fuel bs3 ((declared + 1) % 65536) st' (acc ++ out)
              else
                -- gap: conceal the loss; the chunk itself is NOT decoded and
                -- d.currentFrame is NOT advanced
                match decodeLoss e st (declared - cf) with
                | .error _ => .err .codec
                | .ok (st', out) => decodeLoopF e fuel bs3 cf st' (acc ++ out)
            else
              -- stale frame: drop
              decodeLoopF e fuel bs3 cf st acc

/-- The sub-chunk loop on a byte buffer: fuel is the buffer length, which each
iteration's consumption (at least 4 bytes) never exhausts. -/
def decodeLoop {σ α : Type} (e : Engine σ α) (bs : List Nat) (cf : Nat) (st : σ)
    (acc : List α) : DecodeResult σ α :=
  decodeLoopF e bs.length bs cf st acc

/-- `OpusDecoder.Decode(b)`: run the sub-chunk loop on `b` with the decoder's
current frame counter and engine state, starting from an empty output. -/
def OpusDecode {σ α : Type} (e : Engine σ α) (cf : Nat) (st : σ) (b : List Nat) :
    DecodeResult σ α :=
  decodeLoop e b cf st []

/-! ## DecodeChunk: packet parsing with CRC verification -/

/-- `minimumLength` from the chunk decoder: smallest valid packet size. -/
def minimumLength : Nat := 18

/-- Expected payload-type byte for Steam voice packets. -/
def PayloadTypeHeader : Nat := 0x0B

/-- Voice-type byte for Opus PLC encoded data. -/
def VoiceTypeOpusPLC : Nat := 0x06

/-- Voice-type byte for silence. -/
def VoiceTypeSilence : Nat := 0x00

/-- Errors `DecodeChunk` can return. -/
inductive ChunkErr where
  | insufficientData
  | invalidVoicePacket
  | mismatchChecksum
deriving DecidableEq, Repr

/-- A parsed voice data packet (`Chunk` in the Go source). -/
structure Chunk where
  steamID : Nat
  sampleRate : Nat
  length : Nat
  data : List Nat
  checksum : Nat
deriving DecidableEq, Repr

/-- `DecodeChunk(b)`: parse `[u64 steamID][u8 0x0B][u16 sampleRate][u8 voiceType]
[u16 length][voice data][u32 crc32]`.  With `b.length ≥ 18` every header read of the
Go code succeeds, so the header fields are read by position; the voice-type switch,
the trailing-4-bytes check and the CRC32 comparison follow the source order. -/
def DecodeChunk (b : List Nat) : Except ChunkErr Chunk :=
  let bLen := b.length
  if bLen < minimumLength then .error .insufficientData
  else
    let steamID := leVal (b.take 8)
    let payloadType := b.getD 8 0
    if payloadType ≠ PayloadTypeHeader then .error .invalidVoicePacket
    else
      let sampleRate := leVal ((b.drop 9).take 2)
      let voiceType := b.getD 11 0
      let len := leVal ((b.drop 12).take 2)
      let rest := b.drop 14
      if voiceType = VoiceTypeOpusPLC then
        if rest.length < len then .error .insufficientData
        else
          let rem := rest.drop len
          if rem.length ≠ 4 then .error .invalidVoicePacket
          else if leVal rem ≠ crc32 (b.take (bLen - 4)) then .error .mismatchChecksum
          else .ok ⟨steamID, sampleRate, len, rest.take len, leVal rem⟩
      else if voiceType = VoiceTypeSilence then
        if rest.length ≠ 4 then .error .invalidVoicePacket
        else if leVal rest ≠ crc32 (b.take (bLen - 4)) then .error .mismatchChecksum
        else .ok ⟨steamID, sampleRate, len, [], leVal rest⟩
      else .error .invalidVoicePacket

/-- A raw payload parses structurally: long enough, correct type tag, a known
voice-kind, and the declared length leaves exactly the 4 checksum bytes trailing. -/
def structOk (b : List Nat) : Prop :=
  minimumLength ≤ b.length ∧ b.getD 8 0 = PayloadTypeHeader ∧
    ((b.getD 11 0 = VoiceTypeOpusPLC ∧ b.length = 18 + leVal ((b.drop 12).take 2)) ∨
     (b.getD 11 0 = VoiceTypeSilence ∧ b.length = 18))

instance (b : List Nat) : Decidable (structOk b) := by
  unfold structOk; infer_instance

/-! ## The per-speaker assembly loops of extract.go -/

/-- Failure of the sequenced per-speaker loop (`convertAudioDataToWavFiles` wraps the
underlying error and returns it, aborting the loop). -/
inductive AErr where
  | chunk (e : ChunkErr)
  | opusDecode (e : DErr)
deriving DecidableEq, Repr

/-- Outcome of a per-speaker sequenced assembly run. -/
inductive AsmResult (σ α : Type) where
  | ok (acc : List α) (cf : Nat) (st : σ)
  | fail (e : AErr)
  | panic
deriving DecidableEq

/-- The payload loop of `convertAudioDataToWavFiles` (extract.go:368–384): decode each
chunk; on error return it (aborting the whole speaker); if the chunk carries data,
run `OpusDecoder.Decode` on it (returning its error aborts likewise) and append the
samples.  The float32→int widening is elementwise and length-preserving, so the
accumulator tracks the decoded samples directly. -/
def assembleSteam {σ α : Type} (e : Engine σ α) :
    List (List Nat) → σ → Nat → List α → AsmResult σ α
  | [], st, cf, acc => .ok acc cf st
  | p :: ps, st, cf, acc =>
    match DecodeChunk p with
    | .error err => .fail (.chunk err)
    | .ok c =>
      if 0 < c.data.length then
        match decodeLoop e c.data cf st [] with
        | .panic => .panic
        | .err d => .fail (.opusDecode d)
        | .ok out cf' st' => assembleSteam e ps st' cf' (acc ++ out)
      else assembleSteam e ps st cf acc

/-- The direct pipeline's engine: `decoder.Decode(decoder, data)` decodes one bare
Opus payload into at most 1024 samples (engine-determined). -/
structure DirectEngine (σ α : Type) where
  decode : σ → List Nat → Except Unit (σ × List α)

/-- The payload loop of `opusToWav` (extract.go:413–424): a failed decode is logged
and skipped (`continue`); successes are appended in order. -/
def assembleDirect {σ α : Type} (e : DirectEngine σ α) :
    List (List Nat) → σ → List α → List α × σ
  | [], st, acc => (acc, st)
  | d :: ds, st, acc =>
    match e.decode st d with
    | .error _ => assembleDirect e ds st acc
    | .ok (st', pcm) => assembleDirect e ds st' (acc ++ pcm)

/-! ## Pipeline selection in ExtractVoiceData -/

/-- Voice-data format tag of one `CSVCMsg_VoiceData` message
(`m.Audio.Format.String()`). -/
inductive VFormat where
  | steam
  | opus
  | other
deriving DecidableEq, Repr

/-- One voice-data net message as seen by the registered handler. -/
structure VoiceMsg where
  xuid : Nat
  format : VFormat
  voiceData : List Nat
deriving DecidableEq, Repr

/-- The net-message handler fold of `ExtractVoiceData` (extract.go:183–187): appends
each message's payload to `voiceDataPerPlayer[steamId]` and overwrites the single
`voiceDataFormat` variable with this message's format.  `none` models the variable's
initial empty value. -/
def runHandlers (ms : List VoiceMsg) : (Nat → List (List Nat)) × Option VFormat :=
  ms.foldl
    (fun acc m =>
      (fun p => if p = m.xuid then acc.1 p ++ [m.voiceData] else acc.1 p,
       some m.format))
    (fun _ => [], none)

/-- Which assembler a speaker's payloads are handed to. -/
inductive Pipeline where
  | direct
  | sequenced
  | skipped
deriving DecidableEq, Repr

/-- The dispatch of extract.go:264–279: `opusToWav` when the format variable reads
OPUS, `convertAudioDataToWavFiles` when it reads STEAM, otherwise skip the player. -/
def formatPipeline : Option VFormat → Pipeline
  | some .opus => .direct
  | some .steam => .sequenced
  | _ => .skipped

/-- The pipeline `ExtractVoiceData` uses for a given player: it consults only the
shared `voiceDataFormat` variable left by the handler fold. -/
def selectedPipeline (ms : List VoiceMsg) (_player : Nat) : Pipeline :=
  formatPipeline (runHandlers ms).2

/-- Format tags carried by one player's own messages. -/
def playerFormats (ms : List VoiceMsg) (p : Nat) : List VFormat :=
  (ms.filter (fun m => m.xuid = p)).map (·.format)

/-! ## Concrete fixtures for witnesses and counterexamples -/

/-- Encoding of one sub-chunk `[i16 length][u16 frameIndex][data]` with
`data.length < 32768` (so the `i16` reads back as `data.length`). -/
def encodeSubChunk (dat : List Nat) (idx : Nat) : List Nat :=
  encU16 dat.length ++ encU16 idx ++ dat

/-- A test engine over trivial codec state: frame decodes yield the marker sample
`99`, concealment frames are `FrameSize` zeros. -/
def testEngine : Engine Unit Nat where
  decodeFrame := fun _ _ => .ok ((), [99])
  plc := fun _ => .ok ((), ⟨List.replicate FrameSize 0, List.length_replicate ..⟩)

/-- A direct-pipeline test engine: payload `[0]` fails to decode, anything else
yields the marker sample `7`. -/
def testDirectEngine : DirectEngine Unit Nat where
  decode := fun _ d => if d = [0] then .error () else .ok ((), [7])

/-- A valid 18-byte silence packet: zero steam id, type tag `0x0B`, sample rate 0,
voice-kind silence, length 0, and its correct CRC32 trailer. -/
def silencePacket : List Nat :=
  [0, 0, 0, 0, 0, 0, 0, 0, 0x0B, 0, 0, 0, 0, 0] ++ [4, 137, 124, 187]

/-- A valid 24-byte encoded-audio packet whose 6-byte voice data is the single
sub-chunk `[len=2][idx=0][9, 9]`, with its correct CRC32 trailer. -/
def audioPacket : List Nat :=
  [0, 0, 0, 0, 0, 0, 0, 0, 0x0B, 0, 0, 6, 6, 0] ++ [2, 0, 0, 0, 9, 9] ++ [104, 237, 228, 46]

/-- A valid 19-byte encoded-audio packet (correct CRC32 trailer) whose single voice
data byte `[5]` is truncated as a sub-chunk stream, so `OpusDecoder.Decode` fails. -/
def badAudioPacket : List Nat :=
  [0, 0, 0, 0, 0, 0, 0, 0, 0x0B, 0, 0, 6, 1, 0] ++ [5] ++ [121, 150, 23, 129]

/-! ## Helper lemmas -/

/-- Length invariant of the concealment loop: each successful iteration contributes
exactly `FrameSize` samples. -/
theorem decodeLossLoop_length {σ α : Type} (e : Engine σ α) (n : Nat) :
    ∀ (s : σ) (acc : List α) (s' : σ) (out : List α),
      decodeLossLoop e n s acc = .ok (s', out) → out.length = acc.length + FrameSize * n := by
  induction n with
  | zero =>
    intro s acc s' out h
    simp only [decodeLossLoop, Except.ok.injEq, Prod.mk.injEq] at h
    simp [← h.2]
  | succ n ih =>
    intro s acc s' out h
    simp only [decodeLossLoop] at h
    cases hp : e.plc s with
    | error u => rw [hp] at h; simp at h
    | ok r =>
      obtain ⟨s1, t⟩ := r
      rw [hp] at h
      have := ih s1 (acc ++ t.1) s' out h
      rw [List.length_append, t.2] at this
      rw [this]; ring

/-- A successfully parsed silence packet carries no voice data. -/
theorem DecodeChunk_silence_data (p : List Nat) (c : Chunk)
    (h : DecodeChunk p = .ok c) (hv : p.getD 11 0 = VoiceTypeSilence) : c.data = [] := by
  simp only [DecodeChunk] at h
  by_cases h18 : p.length < minimumLength
  · rw [if_pos h18] at h; exact absurd h (by simp)
  · rw [if_neg h18] at h
    by_cases htag : p.getD 8 0 ≠ PayloadTypeHeader
    · rw [if_pos htag] at h; exact absurd h (by simp)
    · rw [if_neg htag] at h
      rw [if_neg (show ¬(p.getD 11 0 = VoiceTypeOpusPLC) by rw [hv]; decide)] at h
      rw [if_pos hv] at h
      by_cases hr : (p.drop 14).length ≠ 4
      · rw [if_pos hr] at h; exact absurd h (by simp)
      · rw [if_neg hr] at h
        by_cases hc : leVal (p.drop 14) ≠ crc32 (p.take (p.length - 4))
        · rw [if_pos hc] at h; exact absurd h (by simp)
        · rw [if_neg hc] at h
          cases h; rfl

deriving instance DecidableEq for Except

/-- The result of the sub-chunk loop does not depend on the fuel, as long as the
fuel is at least the buffer length (each iteration consumes at least one byte). -/
theorem decodeLoopF_congr {σ α : Type} (e : Engine σ α) :
    ∀ (f1 f2 : Nat) (bs : List Nat) (cf : Nat) (st : σ) (acc : List α),
      bs.length ≤ f1 → bs.length ≤ f2 →
      decodeLoopF e f1 bs cf st acc = decodeLoopF e f2 bs cf st acc := by
  intro f1
  induction f1 with
  | zero =>
    intro f2 bs cf st acc h1 h2
    have hbs : bs = [] := List.eq_nil_of_length_eq_zero (Nat.le_zero.mp h1)
    subst hbs
    cases f2 <;> rfl
  | succ f ih =>
    intro f2 bs cf st acc h1 h2
    cases bs with
    | nil => cases f2 <;> rfl
    | cons b0 t0 =>
      cases f2 with
      | zero => exact absurd h2 (by simp)
      | succ g =>
        cases t0 with
        | nil => rfl
        | cons b1 bs1 =>
          simp only [decodeLoopF]
          by_cases hs : i16 b0 b1 = -1
          · simp [hs]
          · simp only [hs, if_false]
            cases bs1 with
            | nil => rfl
            | cons c0 t2 =>
              cases t2 with
              | nil => rfl
              | cons c1 bs2 =>
                simp only [List.length_cons] at h1 h2
                have hlenf : (bs2.drop (i16 b0 b1).toNat).length ≤ f := by
                  simp only [List.length_drop]; omega
                have hleng : (bs2.drop (i16 b0 b1).toNat).length ≤ g := by
                  simp only [List.length_drop]; omega
                by_cases hneg : i16 b0 b1 < 0
                · simp [hneg]
                · simp only [hneg, if_false]
                  by_cases h6 : 0 < (i16 b0 b1).toNat ∧ bs2.length = 0
                  · simp [h6]
                  · simp only [h6, if_false]
                    by_cases h7 : bs2.length < (i16 b0 b1).toNat
                    · simp [h7]
                    · simp only [h7, if_false]
                      by_cases h10 : cf ≤ u16 c0 c1
                      · by_cases h11 : u16 c0 c1 = cf
                        · simp only [h10, h11, if_true, ite_true, if_pos]
                          cases decodeSteamChunk e st (bs2.take (i16 b0 b1).toNat) with
                          | error u => simp
                          | ok r =>
                            obtain ⟨st', out⟩ := r
                            simpa using ih g _ _ _ _ hlenf hleng
                        · simp only [h10, h11, if_true, if_false, ite_true, ite_false, if_pos]
                          cases decodeLoss e st (u16 c0 c1 - cf) with
                          | error u => simp
                          | ok r =>
                            obtain ⟨st', out⟩ := r
                            simpa using ih g _ _ _ _ hlenf hleng
                      · simp only [h10, if_false]
                        exact ih g _ _ _ _ hlenf hleng

/-- Any sufficient fuel computes `decodeLoop`. -/
theorem decodeLoopF_eq {σ α : Type} (e : Engine σ α) (f : Nat) (bs : List Nat)
    (h : bs.length ≤ f) (cf : Nat) (st : σ) (acc : List α) :
    decodeLoopF e f bs cf st acc = decodeLoop e bs cf st acc :=
  decodeLoopF_congr e f bs.length bs cf st acc h (Nat.le_refl _)

/-- Two little-endian bytes encoding a value below 2^15 read back as that value
through the `i16` interpretation. -/
theorem i16_encU16 (v : Nat) (h : v < 32768) :
    i16 (v % 256) (v / 256 % 256) = (v : Nat) := by
  simp only [i16]
  have hv : v % 256 + 256 * (v / 256 % 256) = v := by omega
  rw [hv, if_pos h]

/-- Two little-endian bytes encoding a value below 2^16 read back as that value
through the `u16` interpretation. -/
theorem u16_encU16 (v : Nat) (h : v < 65536) :
    u16 (v % 256) (v / 256 % 256) = v := by
  simp only [u16]; omega

/-- One step of the sub-chunk loop on a well-formed encoded sub-chunk, at any
sufficient fuel. -/
theorem decodeLoopF_subchunk {σ α : Type} (e : Engine σ α) (F : Nat) (dat rest : List Nat)
    (declared cf : Nat) (st : σ) (acc : List α)
    (hlen : dat.length < 32768) (hdecl : declared < 65536) (hF : rest.length ≤ F) :
    decodeLoopF e (F + 1)
      ((dat.length % 256) :: (dat.length / 256 % 256) ::
        (declared % 256) :: (declared / 256 % 256) :: (dat ++ rest)) cf st acc =
      if cf ≤ declared then
        if declared = cf then
          match decodeSteamChunk e st dat with
          | .error _ => .err .codec
          | .ok (st', out) => decodeLoop e rest ((declared + 1) % 65536) st' (acc ++ out)
        else
          match decodeLoss e st (declared - cf) with
          | .error _ => .err .codec
          | .ok (st', out) => decodeLoop e rest cf st' (acc ++ out)
      else decodeLoop e rest cf st acc := by
  have h1 : i16 (dat.length % 256) (dat.length / 256 % 256) = (dat.length : Nat) :=
    i16_encU16 _ hlen
  have h4 : u16 (declared % 256) (declared / 256 % 256) = declared := u16_encU16 _ hdecl
  simp only [decodeLoopF, h1, h4]
  have h2 : ¬((dat.length : Int) = -1) := by omega
  have h3 : ¬((dat.length : Int) < 0) := by omega
  have h5 : ((dat.length : Int)).toNat = dat.length := by simp
  rw [if_neg h2, if_neg h3]
  simp only [h5]
  have h6 : ¬(0 < dat.length ∧ (dat ++ rest).length = 0) := by
    simp only [List.length_append]; omega
  have h7 : ¬((dat ++ rest).length < dat.length) := by
    simp only [List.length_append]; omega
  rw [if_neg h6, if_neg h7]
  have h8 : (dat ++ rest).take dat.length = dat := List.take_left dat rest
  have h9 : (dat ++ rest).drop dat.length = rest := List.drop_left dat rest
  rw [h8, h9]
  simp only [decodeLoopF_eq e F rest hF]

/-- Processing one well-formed encoded sub-chunk: the loop dispatches on the declared
frame index versus the current one exactly as decoder.go lines 71–91 do. -/
theorem decodeLoop_subchunk {σ α : Type} (e : Engine σ α) (dat rest : List Nat)
    (declared cf : Nat) (st : σ) (acc : List α)
    (hlen : dat.length < 32768) (hdecl : declared < 65536) :
    decodeLoop e (encodeSubChunk dat declared ++ rest) cf st acc =
      if cf ≤ declared then
        if declared = cf then
          match decodeSteamChunk e st dat with
          | .error _ => .err .codec
          | .ok (st', out) => decodeLoop e rest ((declared + 1) % 65536) st' (acc ++ out)
        else
          match decodeLoss e st (declared - cf) with
          | .error _ => .err .codec
          | .ok (st', out) => decodeLoop e rest cf st' (acc ++ out)
      else decodeLoop e rest cf st acc := by
  have e1 : encodeSubChunk dat declared ++ rest =
      (dat.length % 256) :: (dat.length / 256 % 256) ::
        (declared % 256) :: (declared / 256 % 256) :: (dat ++ rest) := by
    simp [encodeSubChunk, encU16]
  have hL : (encodeSubChunk dat declared ++ rest).length = (dat.length + rest.length + 3) + 1 := by
    rw [e1]
    simp only [List.length_cons, List.length_append]
    try omega
  unfold decodeLoop
  rw [hL, e1]
  exact decodeLoopF_subchunk e (dat.length + rest.length + 3) dat rest declared cf st acc
    hlen hdecl (by omega)

/-! ## Claim theorems -/

/-- Claim C5: for every count, `decodeLoss` synthesizes exactly `min(count, 10)`
concealment frames' worth of samples — `480 * min(count, 10)` samples — bounding the
synthesized audio per gap regardless of the sequence jump. -/
theorem decodeLoss_sample_count {σ α : Type} (e : Engine σ α) (s : σ) (samples : Nat)
    (s' : σ) (out : List α) (h : decodeLoss e s samples = .ok (s', out)) :
    out.length = FrameSize * min samples 10 := by
  simpa using decodeLossLoop_length e (min samples 10) s [] s' out h

set_option maxRecDepth 100000 in
/-- Witness for C5 at `samples = 2` with the test engine: `480 * min 2 10 = 960`
samples are synthesized. -/
theorem decodeLoss_sample_count_witness :
    (List.replicate 960 (0 : Nat)).length = FrameSize * min 2 10 :=
  decodeLoss_sample_count testEngine () 2 () (List.replicate 960 0) (by decide)

/-- Claim C6: a sub-chunk whose `i16` length prefix is the `-1` sentinel resets
`currentFrame` to 0 and ends the payload: whatever bytes follow are not read, and no
samples are emitted for the sentinel itself (the accumulator is returned unchanged). -/
theorem sentinel_resets_and_stops {σ α : Type} (e : Engine σ α) (b0 b1 : Nat)
    (rest : List Nat) (cf : Nat) (st : σ) (acc : List α) (h : i16 b0 b1 = -1) :
    decodeLoop e (b0 :: b1 :: rest) cf st acc = .ok acc 0 st := by
  unfold decodeLoop
  simp only [List.length_cons]
  simp [decodeLoopF, h]

/-- Witness for C6: the sentinel bytes `[255, 255]` followed by arbitrary garbage
return the accumulator unchanged with `currentFrame` reset to 0. -/
theorem sentinel_resets_and_stops_witness :
    decodeLoop testEngine (255 :: 255 :: [1, 2, 3]) 7 () ([] : List Nat) = .ok [] 0 () :=
  sentinel_resets_and_stops testEngine 255 255 [1, 2, 3] 7 () [] (by decide)

/-- Claim C10 (code bug): `Decode` does not reject a negative non-sentinel sub-chunk
length with an error; on length prefix `-2` (bytes `[254, 255]`) it reaches
`make([]byte, chunkLen)` with a negative length, a Go runtime panic. -/
theorem decode_negative_length_runtime_failure :
    OpusDecode testEngine 0 () [254, 255, 0, 0] = .panic := by decide

/-- Claim C7: a sub-chunk whose declared frame index is strictly below the current
`currentFrame` is dropped: no samples are appended, the decoder state and
`currentFrame` are unchanged, and processing continues with the remaining bytes. -/
theorem stale_subchunk_dropped {σ α : Type} (e : Engine σ α) (dat rest : List Nat)
    (declared cf : Nat) (st : σ) (acc : List α)
    (hlen : dat.length < 32768) (hdecl : declared < 65536) (hstale : declared < cf) :
    decodeLoop e (encodeSubChunk dat declared ++ rest) cf st acc =
      decodeLoop e rest cf st acc := by
  rw [decodeLoop_subchunk e dat rest declared cf st acc hlen hdecl, if_neg (by omega)]

/-- Witness for C7 at expected index 10, declared index 3: nothing is emitted and
`currentFrame` stays 10. -/
theorem stale_subchunk_dropped_witness :
    decodeLoop testEngine (encodeSubChunk [9, 9] 3 ++ []) 10 () ([] : List Nat) =
      decodeLoop testEngine [] 10 () [] :=
  stale_subchunk_dropped testEngine [9, 9] [] 3 10 () [] (by decide) (by decide) (by decide)

set_option maxRecDepth 100000 in
/-- Counterexample to claim C1: with expected index 5 and declared index 7 the loop
emits only `min(7-5, 10) = 2` concealment frames (960 zero samples from the test
engine), does not decode the sub-chunk's own audio (no marker sample 99 appears), and
leaves `currentFrame` at 5 — not at `7 + 1` with the decoded frame appended, as the
claim states. -/
theorem gap_claim_counterexample :
    decodeLoop testEngine [2, 0, 7, 0, 9, 9] 5 () [] = .ok (List.replicate 960 0) 5 () ∧
    decodeLoop testEngine [2, 0, 7, 0, 9, 9] 5 () [] ≠
      .ok (List.replicate 960 0 ++ [99]) 8 () := by
  exact ⟨by decide, by decide⟩

/-- Claim C1 (amended): for a sub-chunk whose declared frame index strictly exceeds
the current `currentFrame`, the loop appends `decodeLoss(declared - current)` samples
(`480 * min(declared - current, 10)` of them), does not decode the sub-chunk's own
audio, leaves `currentFrame` unchanged, and continues with the remaining bytes. -/
theorem gap_conceals_without_decode {σ α : Type} (e : Engine σ α) (dat rest : List Nat)
    (declared cf : Nat) (st : σ) (acc : List α)
    (hlen : dat.length < 32768) (hdecl : declared < 65536) (hgap : cf < declared) :
    decodeLoop e (encodeSubChunk dat declared ++ rest) cf st acc =
      match decodeLoss e st (declared - cf) with
      | .error _ => .err .codec
      | .ok (st', out) => decodeLoop e rest cf st' (acc ++ out) := by
  rw [decodeLoop_subchunk e dat rest declared cf st acc hlen hdecl,
    if_pos (Nat.le_of_lt hgap), if_neg (ne_of_gt hgap)]

/-- Witness for the amended C1 at expected index 5, declared index 7. -/
theorem gap_conceals_without_decode_witness :
    decodeLoop testEngine (encodeSubChunk [9, 9] 7 ++ []) 5 () ([] : List Nat) =
      match decodeLoss testEngine () (7 - 5) with
      | .error _ => .err .codec
      | .ok (st', out) => decodeLoop testEngine [] 5 st' ([] ++ out) :=
  gap_conceals_without_decode testEngine [9, 9] [] 7 5 () [] (by decide) (by decide)
    (by decide)

/-- Counterexample to claim C2: in the sequenced assembler a payload whose chunk
decode fails does not get skipped — it aborts the whole speaker's stream, and the
following valid payload's samples (the marker `99`) never appear, although processing
that payload alone produces them. -/
theorem steam_abort_counterexample :
    assembleSteam testEngine [[], audioPacket] () 0 [] = .fail (.chunk .insufficientData) ∧
    assembleSteam testEngine [audioPacket] () 0 [] = .ok [99] 1 () ∧
    (AsmResult.fail (.chunk .insufficientData) : AsmResult Unit Nat) ≠ .ok [99] 1 () := by
  exact ⟨by decide, by decide, by decide⟩

/-- Claim C2 (amended): only the direct assembler recovers locally — a payload whose
decode fails is skipped and processing continues.  The sequenced assembler aborts the
whole speaker's stream on the first payload whose chunk parse or Opus decode fails,
returning that error; subsequent payloads are not processed. -/
theorem per_payload_failure_policy :
    (∀ (σ α : Type) (e : Engine σ α) (p : List Nat) (ps : List (List Nat)) (st : σ)
      (cf : Nat) (acc : List α) (err : ChunkErr), DecodeChunk p = .error err →
      assembleSteam e (p :: ps) st cf acc = .fail (.chunk err)) ∧
    (∀ (σ α : Type) (e : Engine σ α) (p : List Nat) (ps : List (List Nat)) (st : σ)
      (cf : Nat) (acc : List α) (c : Chunk) (d : DErr), DecodeChunk p = .ok c →
      decodeLoop e c.data cf st [] = .err d →
      assembleSteam e (p :: ps) st cf acc = .fail (.opusDecode d)) ∧
    (∀ (σ α : Type) (e : DirectEngine σ α) (d : List Nat) (ds : List (List Nat))
      (st : σ) (acc : List α), e.decode st d = .error () →
      assembleDirect e (d :: ds) st acc = assembleDirect e ds st acc) := by
  refine ⟨?_, ?_, ?_⟩
  · intro σ α e p ps st cf acc err h
    simp [assembleSteam, h]
  · intro σ α e p ps st cf acc c d h hd
    by_cases h0 : 0 < c.data.length
    · simp [assembleSteam, h, h0, hd]
    · exfalso
      have hnil : c.data = [] := by
        cases hc : c.data with
        | nil => rfl
        | cons x xs => rw [hc] at h0; simp at h0
      rw [hnil] at hd
      simp [decodeLoop, decodeLoopF] at hd
  · intro σ α e d ds st acc h
    simp [assembleDirect, h]

/-- Witness for the amended C2: a malformed first payload aborts the sequenced
assembler; a well-formed chunk with undecodable Opus data aborts it too; the direct
assembler skips a failing payload. -/
theorem per_payload_failure_policy_witness :
    assembleSteam testEngine [[], audioPacket] () 0 ([] : List Nat) =
      .fail (.chunk .insufficientData) ∧
    assembleSteam testEngine [badAudioPacket] () 0 ([] : List Nat) =
      .fail (.opusDecode .readEOF) ∧
    assembleDirect testDirectEngine [[0]] () ([] : List Nat) =
      assembleDirect testDirectEngine [] () [] :=
  ⟨per_payload_failure_policy.1 Unit Nat testEngine [] [audioPacket] () 0 []
      .insufficientData (by decide),
   per_payload_failure_policy.2.1 Unit Nat testEngine badAudioPacket [] () 0 []
      ⟨0, 0, 1, [5], 2165806713⟩ .readEOF (by decide) (by decide),
   per_payload_failure_policy.2.2 Unit Nat testDirectEngine [0] [] () [] (by decide)⟩

/-- Claim C9: a successfully decoded silence payload contributes nothing to the
sequenced assembly: no samples are appended, `currentFrame` and the codec state are
untouched, and the run is exactly as if the payload were absent. -/
theorem silence_payload_no_effect (σ α : Type) (e : Engine σ α) (p : List Nat)
    (ps : List (List Nat)) (st : σ) (cf : Nat) (acc : List α) (c : Chunk)
    (h : DecodeChunk p = .ok c) (hv : p.getD 11 0 = VoiceTypeSilence) :
    assembleSteam e (p :: ps) st cf acc = assembleSteam e ps st cf acc := by
  have hd : c.data = [] := DecodeChunk_silence_data p c h hv
  simp [assembleSteam, h, hd]

/-- Witness for C9: prepending the valid silence packet to a payload list changes
nothing. -/
theorem silence_payload_no_effect_witness :
    assembleSteam testEngine [silencePacket, audioPacket] () 5 ([] : List Nat) =
      assembleSteam testEngine [audioPacket] () 5 [] :=
  silence_payload_no_effect Unit Nat testEngine silencePacket [audioPacket] () 5 []
    ⟨0, 0, 0, [], 3145500932⟩ (by decide) (by decide)

/-- Claim C3: for every structurally parsing payload, `DecodeChunk` fails with a
checksum mismatch exactly when the trailing little-endian u32 differs from the CRC32
of all preceding bytes, and succeeds exactly when it matches (so flipping any of the
last 4 bytes of a valid payload turns success into `ChecksumMismatch`). -/
theorem decodeChunk_checksum_iff (b : List Nat) (hs : structOk b) :
    (DecodeChunk b = .error .mismatchChecksum ↔
      leVal (b.drop (b.length - 4)) ≠ crc32 (b.take (b.length - 4))) ∧
    ((∃ c, DecodeChunk b = .ok c) ↔
      leVal (b.drop (b.length - 4)) = crc32 (b.take (b.length - 4))) := by
  obtain ⟨h18, htag, hkind⟩ := hs
  simp only [DecodeChunk]
  rw [if_neg (show ¬ b.length < minimumLength by omega),
    if_neg (not_not_intro htag)]
  rcases hkind with ⟨hv, hl⟩ | ⟨hv, hl⟩
  · rw [if_pos hv,
      if_neg (show ¬ (b.drop 14).length < leVal ((b.drop 12).take 2) by
        simp only [List.length_drop]; omega)]
    have hdd : (b.drop 14).drop (leVal ((b.drop 12).take 2)) = b.drop (b.length - 4) := by
      rw [List.drop_drop]
      congr 1
      omega
    rw [hdd,
      if_neg (show ¬ (b.drop (b.length - 4)).length ≠ 4 by
        simp only [List.length_drop]; omega)]
    by_cases hc : leVal (b.drop (b.length - 4)) = crc32 (b.take (b.length - 4)) <;>
      simp [hc]
  · rw [if_neg (show ¬ b.getD 11 0 = VoiceTypeOpusPLC by rw [hv]; decide), if_pos hv]
    rw [show (14 : Nat) = b.length - 4 by omega]
    rw [if_neg (show ¬ (b.drop (b.length - 4)).length ≠ 4 by
      simp only [List.length_drop]; omega)]
    by_cases hc : leVal (b.drop (b.length - 4)) = crc32 (b.take (b.length - 4)) <;>
      simp [hc]

/-- Witness for C3 at the valid silence packet. -/
theorem decodeChunk_checksum_iff_witness :
    (DecodeChunk silencePacket = .error .mismatchChecksum ↔
      leVal (silencePacket.drop (silencePacket.length - 4)) ≠
        crc32 (silencePacket.take (silencePacket.length - 4))) ∧
    ((∃ c, DecodeChunk silencePacket = .ok c) ↔
      leVal (silencePacket.drop (silencePacket.length - 4)) =
        crc32 (silencePacket.take (silencePacket.length - 4))) :=
  decodeChunk_checksum_iff silencePacket (by decide)

/-- Claim C8: `DecodeChunk` fails with `InsufficientData` on every input shorter than
the 18-byte minimum and on every encoded-audio input whose declared length exceeds the
remaining bytes; a minimum-length silence packet with the correct type tag, length 0
and a matching trailing checksum succeeds. -/
theorem decodeChunk_length_bounds :
    (∀ b : List Nat, b.length < minimumLength →
      DecodeChunk b = .error .insufficientData) ∧
    (∀ b : List Nat, minimumLength ≤ b.length → b.getD 8 0 = PayloadTypeHeader →
      b.getD 11 0 = VoiceTypeOpusPLC →
      (b.drop 14).length < leVal ((b.drop 12).take 2) →
      DecodeChunk b = .error .insufficientData) ∧
    (∀ b : List Nat, b.length = minimumLength → b.getD 8 0 = PayloadTypeHeader →
      b.getD 11 0 = VoiceTypeSilence → leVal ((b.drop 12).take 2) = 0 →
      leVal (b.drop 14) = crc32 (b.take 14) → ∃ c, DecodeChunk b = .ok c) := by
  refine ⟨?_, ?_, ?_⟩
  · intro b h
    simp only [DecodeChunk]
    rw [if_pos h]
  · intro b h18 htag hv hshort
    simp only [DecodeChunk]
    rw [if_neg (show ¬ b.length < minimumLength by omega),
      if_neg (not_not_intro htag), if_pos hv, if_pos hshort]
  · intro b hl htag hv hlen0 hcrc
    have hl18 : b.length = 18 := hl
    simp only [DecodeChunk]
    rw [if_neg (show ¬ b.length < minimumLength by rw [hl]; exact lt_irrefl _),
      if_neg (not_not_intro htag),
      if_neg (show ¬ b.getD 11 0 = VoiceTypeOpusPLC by rw [hv]; decide),
      if_pos hv,
      if_neg (show ¬ (b.drop 14).length ≠ 4 by simp [List.length_drop, hl18]),
      show b.length - 4 = 14 by omega,
      if_neg (show ¬ leVal (b.drop 14) ≠ crc32 (b.take 14) by simpa using hcrc)]
    exact ⟨_, rfl⟩

/-- Witness for C8: a 17-byte input and an 18-byte audio input declaring 200 payload
bytes both fail with `InsufficientData`; the valid 18-byte silence packet succeeds. -/
theorem decodeChunk_length_bounds_witness :
    DecodeChunk (List.replicate 17 0) = .error .insufficientData ∧
    DecodeChunk ([0, 0, 0, 0, 0, 0, 0, 0, 0x0B, 0, 0, 6, 200, 0] ++ [1, 2, 3, 4]) =
      .error .insufficientData ∧
    ∃ c, DecodeChunk silencePacket = .ok c :=
  ⟨decodeChunk_length_bounds.1 (List.replicate 17 0) (by decide),
   decodeChunk_length_bounds.2.1 ([0, 0, 0, 0, 0, 0, 0, 0, 0x0B, 0, 0, 6, 200, 0] ++ [1, 2, 3, 4])
     (by decide) (by decide) (by decide) (by decide),
   decodeChunk_length_bounds.2.2 silencePacket (by decide) (by decide) (by decide)
     (by decide) (by decide)⟩

/-- Counterexample to claim C4: with one STEAM-tagged message from player 1 followed
by one OPUS-tagged message from player 2, player 1 — whose own payloads all carry the
STEAM tag — is dispatched to the direct (OPUS) pipeline, because the selector consults
a single format variable overwritten by every message, not the speaker's own tag. -/
theorem selector_counterexample :
    playerFormats [⟨1, .steam, [1]⟩, ⟨2, .opus, [2]⟩] 1 = [.steam] ∧
    (runHandlers [⟨1, .steam, [1]⟩, ⟨2, .opus, [2]⟩]).1 1 = [[1]] ∧
    selectedPipeline [⟨1, .steam, [1]⟩, ⟨2, .opus, [2]⟩] 1 = .direct ∧
    Pipeline.direct ≠ Pipeline.sequenced := by
  exact ⟨by decide, by decide, by decide, by decide⟩

/-- Claim C4 (amended): every speaker is dispatched according to the format tag of
the demo's last voice-data message — the handler overwrites one shared format
variable per message, so the final message's tag decides the pipeline for all
speakers alike. -/
theorem selector_last_format_wins (ms : List VoiceMsg) (m : VoiceMsg) (p : Nat) :
    selectedPipeline (ms ++ [m]) p = formatPipeline (some m.format) := by
  simp [selectedPipeline, runHandlers, List.foldl_append]

end CS2Voice
